import Mathlib

/-!
Shallow embedding of `src/vae/vae.py` (the aavae repository): the
distribution registry, the discretized-logistic and Gaussian pixel
likelihoods, the Monte-Carlo KL estimator, the projection heads, and the
`VAE` module's `__init__`, `sample`, `forward`, `step`, `training_step`
and `validation_step`.

Tensors are total functions on `Fin`-indexed axes with real entries.
Randomness (`rsample`) is made explicit: every sampling site takes the
underlying noise tensor as an argument and applies the family's
reparameterization to it.  The ResNet encoder/decoder and the
`gini_score` metric live in modules of the repository that are external
collaborators of the core (`resnet.py`, `metrics.py`); the step function
is parameterized over them, exactly as the core only depends on their
shape contract.
-/

namespace AAVAE

noncomputable section

/-- A batched image tensor of shape (N, C, H, W). -/
abbrev Tensor4 (N C H W : ℕ) := Fin N → Fin C → Fin H → Fin W → ℝ

/-- A batched matrix of shape (N, Z). -/
abbrev Tensor2 (N Z : ℕ) := Fin N → Fin Z → ℝ

/-- A batched vector of shape (N,). -/
abbrev Vec (N : ℕ) := Fin N → ℝ

/-- torch.sigmoid. -/
def sigmoid (x : ℝ) : ℝ := 1 / (1 + Real.exp (-x))

/-- The two distribution families of the `distributions` registry. -/
inductive DistFamily where
  | normal : DistFamily
  | laplace : DistFamily
deriving DecidableEq

/-- `distributions = {"laplace": torch.distributions.Laplace, "normal": torch.distributions.Normal}`;
a missing key is a `KeyError`, i.e. `none`. -/
def distributions (s : String) : Option DistFamily :=
  match s with
  | "laplace" => some DistFamily.laplace
  | "normal" => some DistFamily.normal
  | _ => none

/-- The two backbone variants of the `encoders`/`decoders` registries. -/
inductive Backbone where
  | resnet18 : Backbone
  | resnet50 : Backbone
deriving DecidableEq

/-- `encoders = {"resnet18": resnet18_encoder, "resnet50": resnet50_encoder}`. -/
def encoders (s : String) : Option Backbone :=
  match s with
  | "resnet18" => some Backbone.resnet18
  | "resnet50" => some Backbone.resnet50
  | _ => none

/-- `decoders = {"resnet18": resnet18_decoder, "resnet50": resnet50_decoder}`. -/
def decoders (s : String) : Option Backbone :=
  match s with
  | "resnet18" => some Backbone.resnet18
  | "resnet50" => some Backbone.resnet50
  | _ => none

/-- A constructed `torch.distributions` object: a family tag plus batched
(location, scale) parameter tensors of shape (N, Z). -/
structure DistObj (N Z : ℕ) where
  family : DistFamily
  loc : Tensor2 N Z
  scale : Tensor2 N Z

/-- Pointwise `torch.distributions.Normal(loc, scale).log_prob x`. -/
def normalLogProb (loc scale x : ℝ) : ℝ :=
  -((x - loc) ^ 2) / (2 * scale ^ 2) - Real.log scale - Real.log (Real.sqrt (2 * Real.pi))

/-- Pointwise `torch.distributions.Laplace(loc, scale).log_prob x`. -/
def laplaceLogProb (loc scale x : ℝ) : ℝ :=
  -(Real.log (2 * scale)) - |x - loc| / scale

/-- Elementwise `log_prob` of a batched distribution object. -/
def DistObj.logProb (d : DistObj N Z) (x : Tensor2 N Z) : Tensor2 N Z :=
  fun i j =>
    match d.family with
    | DistFamily.normal => normalLogProb (d.loc i j) (d.scale i j) (x i j)
    | DistFamily.laplace => laplaceLogProb (d.loc i j) (d.scale i j) (x i j)

/-- Reparameterized `rsample`, with the base noise tensor explicit: a Normal
uses `loc + scale * eps` with standard-normal noise, a Laplace uses
`loc - scale * sign(u) * log(1 - |u|)` with uniform noise on (-1, 1). -/
def DistObj.rsample (d : DistObj N Z) (eps : Tensor2 N Z) : Tensor2 N Z :=
  fun i j =>
    match d.family with
    | DistFamily.normal => d.loc i j + d.scale i j * eps i j
    | DistFamily.laplace =>
        d.loc i j - d.scale i j * Real.sign (eps i j) * Real.log (1 - |eps i j|)

/-- `discretized_logistic(mean, logscale, sample, binsize=1/256)` from
`src/vae/vae.py`: clamp the mean, standardize the floor-quantized sample,
take the log of the sigmoid difference across one bin (plus 1e-7), and sum
over the channel and the two spatial axes. -/
def discretized_logistic (mean : Tensor4 N C H W) (logscale : ℝ)
    (sample : Tensor4 N C H W) (binsize : ℝ) : Vec N :=
  let m : Tensor4 N C H W := fun i c h w =>
    min (max (mean i c h w) (-0.5 + 1 / 512)) (0.5 - 1 / 512)
  let scale : ℝ := Real.exp logscale
  let s : Tensor4 N C H W := fun i c h w =>
    ((⌊sample i c h w / binsize⌋ : ℝ) * binsize - m i c h w) / scale
  fun i => ∑ c, ∑ h, ∑ w,
    Real.log (sigmoid (s i c h w + binsize / scale) - sigmoid (s i c h w) + 1e-7)

/-- `gaussian_likelihood(mean, logscale, sample)` from `src/vae/vae.py`. -/
def gaussian_likelihood (mean : Tensor4 N C H W) (logscale : ℝ)
    (sample : Tensor4 N C H W) : Vec N :=
  let scale : ℝ := Real.exp logscale
  fun i => ∑ c, ∑ h, ∑ w, normalLogProb (mean i c h w) scale (sample i c h w)

/-- `kl_divergence_mc(p, q, num_samples)` from `src/vae/vae.py`:
`x = p.rsample([num_samples])`, then `(p.log_prob(x) - q.log_prob(x))`
averaged over the sample axis and summed over the latent axis. -/
def kl_divergence_mc (p q : DistObj N Z) (numSamples : ℕ)
    (eps : Fin numSamples → Tensor2 N Z) : Vec N :=
  fun i => ∑ j,
    (∑ s, (p.logProb (p.rsample (eps s)) i j - q.logProb (p.rsample (eps s)) i j))
      / (numSamples : ℝ)

/-- The learned parameters a `Projection(input_dim, hidden_dim, output_dim)`
module owns after initialization.  `l1w`, `l1b` are the first `nn.Linear`
(bias on), `bn*` the `nn.BatchNorm1d` statistics and affine parameters,
`l2w` the final `nn.Linear` with `bias=False` — these belong to the
`hidden_dim > 0` branch.  `lw`, `lb` are the weight and (default, present)
bias of the single `nn.Linear(input_dim, output_dim)` of the `else` branch. -/
structure ProjectionParams (inputDim hiddenDim outputDim : ℕ) where
  l1w : Fin hiddenDim → Fin inputDim → ℝ
  l1b : Fin hiddenDim → ℝ
  bnGamma : Fin hiddenDim → ℝ
  bnBeta : Fin hiddenDim → ℝ
  bnMean : Fin hiddenDim → ℝ
  bnVar : Fin hiddenDim → ℝ
  l2w : Fin outputDim → Fin hiddenDim → ℝ
  lw : Fin outputDim → Fin inputDim → ℝ
  lb : Fin outputDim → ℝ

/-- `Projection.forward` from `src/vae/vae.py`: with `hidden_dim > 0` the
model is `Linear(bias=True) → BatchNorm1d → ReLU → Linear(bias=False)`
(batch norm written with its normalization statistics and `eps = 1e-5`);
otherwise it is the single `nn.Linear(input_dim, output_dim)`, whose
default keeps the additive bias. -/
def Projection.forward (P : ProjectionParams inputDim hiddenDim outputDim)
    (x : Vec inputDim) : Vec outputDim :=
  if 0 < hiddenDim then
    let h1 : Vec hiddenDim := fun j => (∑ i, P.l1w j i * x i) + P.l1b j
    let h2 : Vec hiddenDim := fun j =>
      (h1 j - P.bnMean j) / Real.sqrt (P.bnVar j + 1e-5) * P.bnGamma j + P.bnBeta j
    let h3 : Vec hiddenDim := fun j => max (h2 j) 0
    fun o => ∑ j, P.l2w o j * h3 j
  else
    fun o => (∑ i, P.lw o i * x i) + P.lb o

/-- The configuration state `VAE.__init__` ends up with: resolved backbone
variants, the prior/posterior family names stored as raw strings (no
lookup happens at construction), and the hidden width the two projection
heads were built with (`0` for the "linear" configuration, the default
`2048` otherwise). -/
structure VAEState where
  encoder : Backbone
  decoder : Backbone
  prior : String
  posterior : String
  projectionHiddenDim : ℕ
deriving DecidableEq

/-- `VAE.__init__`: the `encoders[encoder]` / `decoders[decoder]` registry
lookups run at construction time (a bad backbone name raises there, hence
`none`), while `self.prior = prior` and `self.posterior = posterior` just
store the strings unchecked. -/
def VAE.init (encoderName decoderName prior posterior projection : String) :
    Option VAEState :=
  match encoders encoderName, decoders decoderName with
  | some e, some d =>
      some ⟨e, d, prior, posterior, if projection = "linear" then 0 else 2048⟩
  | _, _ => none

/-- `VAE.sample(mu, log_var)`: `std = exp(log_var / 2)`, then the prior is
built from the registry at `self.prior` with zero location and unit scale,
the posterior from the registry at `self.posterior` with `(mu, std)`, and
`z = q.rsample()` (noise explicit).  The registry lookups happen here, so
an unknown family name only fails now — `none`. -/
def VAE.sample (st : VAEState) (mu logVar : Tensor2 N Z) (eps : Tensor2 N Z) :
    Option (DistObj N Z × DistObj N Z × Tensor2 N Z) :=
  match distributions st.prior, distributions st.posterior with
  | some prF, some poF =>
      let std : Tensor2 N Z := fun i j => Real.exp (logVar i j / 2)
      let p : DistObj N Z := ⟨prF, fun _ _ => 0, fun _ _ => 1⟩
      let q : DistObj N Z := ⟨poF, mu, std⟩
      some (p, q, q.rsample eps)
  | _, _ => none

/-- The body of `VAE.sample` after the two registry lookups succeeded with
families `prior` and `posterior`. -/
def VAE.sampleFam (prior posterior : DistFamily) (mu logVar : Tensor2 N Z)
    (eps : Tensor2 N Z) : DistObj N Z × DistObj N Z × Tensor2 N Z :=
  let std : Tensor2 N Z := fun i j => Real.exp (logVar i j / 2)
  let p : DistObj N Z := ⟨prior, fun _ _ => 0, fun _ _ => 1⟩
  let q : DistObj N Z := ⟨posterior, mu, std⟩
  (p, q, q.rsample eps)

/-- `VAE.forward(x)`: encode, project to `(mu, log_var)`, sample, decode.
The encoder, the two projection heads and the decoder are the module's
externally built collaborators, passed as functions on batched tensors;
images are `(N, 3, ih, ih)` with `ih` the input height. -/
def VAE.forward (prior posterior : DistFamily)
    (encoder : Tensor4 N 3 ih ih → Tensor2 N D)
    (fc_mu fc_var : Tensor2 N D → Tensor2 N Z)
    (decoder : Tensor2 N Z → Tensor4 N 3 ih ih)
    (eps : Tensor2 N Z) (x : Tensor4 N 3 ih ih) :
    Tensor2 N Z × Tensor4 N 3 ih ih × DistObj N Z × DistObj N Z :=
  let feat := encoder x
  let mu := fc_mu feat
  let logVar := fc_var feat
  let pqz := VAE.sampleFam prior posterior mu logVar eps
  (pqz.2.2, decoder pqz.2.2, pqz.1, pqz.2.1)

/-- The values `VAE.step` places in its `logs` dictionary, in order. -/
structure StepLogs where
  kl : ℝ
  elbo : ℝ
  gini : ℝ
  bpd : ℝ
  log_pxz : ℝ
  marginal_log_px : ℝ

/-- `torch.logsumexp` over the batch axis. -/
def logsumexp (v : Vec N) : ℝ := Real.log (∑ i, Real.exp (v i))

/-- `VAE.step(batch)` for a batch `((x1, x2, _), y)`: forward on `x1`,
reconstruction likelihood of `x2` under `x1_hat`, Monte-Carlo KL (one
sample, with its own fresh prior noise `klEps`), `elbo`, bits per
dimension with `in_channels = 3` and `H = W = ih`, the Gini diagnostic
(external `gini_score`), and the batch-mixed importance estimate of the
marginal log-likelihood.  Returns `(elbo, logs)`. -/
def VAE.step (prior posterior : DistFamily)
    (encoder : Tensor4 N 3 ih ih → Tensor2 N D)
    (fc_mu fc_var : Tensor2 N D → Tensor2 N Z)
    (decoder : Tensor2 N Z → Tensor4 N 3 ih ih)
    (gini_score : Tensor2 N Z → Vec N)
    (log_scale : ℝ) (eps : Tensor2 N Z) (klEps : Fin 1 → Tensor2 N Z)
    (x1 x2 : Tensor4 N 3 ih ih) : ℝ × StepLogs :=
  let fwd := VAE.forward prior posterior encoder fc_mu fc_var decoder eps x1
  let z := fwd.1
  let x1_hat := fwd.2.1
  let p := fwd.2.2.1
  let q := fwd.2.2.2
  let log_pxz := discretized_logistic x1_hat log_scale x2 (1 / 256)
  let log_qz := q.logProb z
  let log_pz := p.logProb z
  let kl := kl_divergence_mc p q 1 klEps
  let elbo := (∑ i, (kl i - log_pxz i)) / (N : ℝ)
  let bpd := elbo / ((ih : ℝ) * (ih : ℝ) * 3 * Real.log 2)
  let gini := gini_score z
  let marg := logsumexp
      (fun i => log_pxz i + (∑ j, log_pz i j) - (∑ j, log_qz i j))
    - Real.log (N : ℝ)
  (elbo,
    ⟨(∑ i, kl i) / (N : ℝ), elbo, (∑ i, gini i) / (N : ℝ), bpd,
     (∑ i, log_pxz i) / (N : ℝ), marg⟩)

/-- The `logs` dictionary as the ordered association list
`{"kl": ..., "elbo": ..., "gini": ..., "bpd": ..., "log_pxz": ...,
"marginal_log_px": ...}`. -/
def StepLogs.toList (l : StepLogs) : List (String × ℝ) :=
  [( "kl", l.kl), ( "elbo", l.elbo), ( "gini", l.gini), ( "bpd", l.bpd),
   ( "log_pxz", l.log_pxz), ( "marginal_log_px", l.marginal_log_px)]

/-- `{f"{tag}{k}": v for k, v in logs.items()}`. -/
def tagLogs (tag : String) (l : StepLogs) : List (String × ℝ) :=
  (StepLogs.toList l).map (fun kv => (tag ++ kv.1, kv.2))

def trainTag : String := "train_"

def valTag : String := "val_"

/-- `VAE.training_step`: run `step`, log every metric under a `train_`
key (per-step), return the loss. -/
def VAE.training_step (prior posterior : DistFamily)
    (encoder : Tensor4 N 3 ih ih → Tensor2 N D)
    (fc_mu fc_var : Tensor2 N D → Tensor2 N Z)
    (decoder : Tensor2 N Z → Tensor4 N 3 ih ih)
    (gini_score : Tensor2 N Z → Vec N)
    (log_scale : ℝ) (eps : Tensor2 N Z) (klEps : Fin 1 → Tensor2 N Z)
    (x1 x2 : Tensor4 N 3 ih ih) : ℝ × List (String × ℝ) :=
  let out := VAE.step prior posterior encoder fc_mu fc_var decoder gini_score
    log_scale eps klEps x1 x2
  (out.1, tagLogs trainTag out.2)

/-- `VAE.validation_step`: run `step`, log every metric under a `val_`
key (per-epoch), return the loss. -/
def VAE.validation_step (prior posterior : DistFamily)
    (encoder : Tensor4 N 3 ih ih → Tensor2 N D)
    (fc_mu fc_var : Tensor2 N D → Tensor2 N Z)
    (decoder : Tensor2 N Z → Tensor4 N 3 ih ih)
    (gini_score : Tensor2 N Z → Vec N)
    (log_scale : ℝ) (eps : Tensor2 N Z) (klEps : Fin 1 → Tensor2 N Z)
    (x1 x2 : Tensor4 N 3 ih ih) : ℝ × List (String × ℝ) :=
  let out := VAE.step prior posterior encoder fc_mu fc_var decoder gini_score
    log_scale eps klEps x1 x2
  (out.1, tagLogs valTag out.2)

/-! ## Spec-side formulations used to check refinement claims -/

/-- The discretized-logistic likelihood as the specification words it:
clamp the mean, `scale = exp(log_scale)`, quantize the target to the lower
edge of its 1/256-wide bin, take the logistic-CDF difference across the
two bin edges, add `1e-7` before the logarithm, and sum over channel and
the two spatial axes. -/
def discretized_logistic_edges (mean : Tensor4 N C H W) (logscale : ℝ)
    (sample : Tensor4 N C H W) (binsize : ℝ) : Vec N :=
  let m : Tensor4 N C H W := fun i c h w =>
    min (max (mean i c h w) (-0.5 + 1 / 512)) (0.5 - 1 / 512)
  let scale : ℝ := Real.exp logscale
  let lower : Tensor4 N C H W := fun i c h w =>
    (⌊sample i c h w / binsize⌋ : ℝ) * binsize
  fun i => ∑ c, ∑ h, ∑ w,
    Real.log (sigmoid ((lower i c h w + binsize - m i c h w) / scale)
      - sigmoid ((lower i c h w - m i c h w) / scale) + 1e-7)

/-- The KL estimator exactly as the claim states it: samples drawn from
the posterior `q`, log-densities of those samples under both `p` and `q`,
averaged over the Monte-Carlo axis and summed over the latent axis — a
Monte-Carlo estimate of `KL(q, p)`. -/
def kl_divergence_mc_claimed (p q : DistObj N Z) (numSamples : ℕ)
    (eps : Fin numSamples → Tensor2 N Z) : Vec N :=
  fun i => ∑ j,
    (∑ s, (q.logProb (q.rsample (eps s)) i j - p.logProb (q.rsample (eps s)) i j))
      / (numSamples : ℝ)

/-- A bias-free matrix–vector product: the map the claim says the
`hidden_dim = 0` projection head computes. -/
def projectionClaimedLinear (w : Fin outputDim → Fin inputDim → ℝ)
    (x : Vec inputDim) : Vec outputDim :=
  fun o => ∑ i, w o i * x i

/-- `bpd` as computed in `VAE.step`: `elbo / (ih * ih * 3 * ln 2)`. -/
def bitsPerDim (ih : ℕ) (e : ℝ) : ℝ :=
  e / ((ih : ℝ) * (ih : ℝ) * 3 * Real.log 2)

/-! ## Concrete inputs for counterexamples and witnesses -/

/-- Standard normal over a single latent of a single batch element. -/
def pC1 : DistObj 1 1 := ⟨DistFamily.normal, fun _ _ => 0, fun _ _ => 1⟩

/-- Unit-scale normal with location 1. -/
def qC1 : DistObj 1 1 := ⟨DistFamily.normal, fun _ _ => 1, fun _ _ => 1⟩

/-- One Monte-Carlo draw of base noise 1. -/
def epsC1 : Fin 1 → Tensor2 1 1 := fun _ _ _ => 1

/-- Parameters of a `Projection(input_dim=1, hidden_dim=0, output_dim=1)`
whose single linear layer has zero weight and bias 1. -/
def P3 : ProjectionParams 1 0 1 :=
  ⟨fun _ _ => 0, fun _ => 0, fun _ => 0, fun _ => 0, fun _ => 0, fun _ => 0,
   fun _ _ => 0, fun _ _ => 0, fun _ => 1⟩

def resnet18Name : String := "resnet18"

def cauchyName : String := "cauchy"

def normalName : String := "normal"

def linearName : String := "linear"

/-- An all-zero (1, 1) tensor. -/
def zeroT : Tensor2 1 1 := fun _ _ => 0

/-! ## Helper lemmas -/

theorem sigmoid_pos (x : ℝ) : 0 < sigmoid x := by
  unfold sigmoid
  positivity

theorem sigmoid_lt_one (x : ℝ) : sigmoid x < 1 := by
  unfold sigmoid
  rw [div_lt_one (by positivity)]
  have := Real.exp_pos (-x)
  linarith

theorem sigmoid_le_sigmoid {x y : ℝ} (hxy : x ≤ y) : sigmoid x ≤ sigmoid y := by
  unfold sigmoid
  have h1 : (0 : ℝ) < 1 + Real.exp (-y) := by positivity
  have h2 : Real.exp (-y) ≤ Real.exp (-x) := Real.exp_le_exp.mpr (by linarith)
  exact one_div_le_one_div_of_le h1 (by linarith)

/-- Each per-pixel logarithm in the discretized-logistic likelihood has an
argument between `1e-7` and `1 + 1e-7`, hence a value between the
logarithms of those constants. -/
theorem logArg_bounds (a d : ℝ) (hd : 0 ≤ d) :
    Real.log (1e-7) ≤ Real.log (sigmoid (a + d) - sigmoid a + 1e-7) ∧
    Real.log (sigmoid (a + d) - sigmoid a + 1e-7) ≤ Real.log (1 + 1e-7) := by
  have h1 : (0 : ℝ) ≤ sigmoid (a + d) - sigmoid a :=
    sub_nonneg.mpr (sigmoid_le_sigmoid (by linarith))
  have h2 : sigmoid (a + d) - sigmoid a ≤ 1 := by
    have := sigmoid_lt_one (a + d)
    have := sigmoid_pos a
    linarith
  constructor
  · exact Real.log_le_log (by norm_num) (by linarith)
  · exact Real.log_le_log (by norm_num [h1] ; linarith) (by linarith)

/-- A triple sum over `Fin C × Fin H × Fin W` of pointwise bounded terms is
bounded by `C * H * W` times the pointwise bounds. -/
theorem sum3_bounds (f : Fin C → Fin H → Fin W → ℝ) (lo hi : ℝ)
    (hl : ∀ c h w, lo ≤ f c h w) (hh : ∀ c h w, f c h w ≤ hi) :
    ((C : ℝ) * H * W) * lo ≤ (∑ c, ∑ h, ∑ w, f c h w) ∧
    (∑ c, ∑ h, ∑ w, f c h w) ≤ ((C : ℝ) * H * W) * hi := by
  have hw_lo : ∀ c h, (W : ℝ) * lo ≤ ∑ w, f c h w := by
    intro c h
    calc (W : ℝ) * lo = ∑ _w : Fin W, lo := by
          simp [Finset.sum_const, Finset.card_univ, nsmul_eq_mul]
      _ ≤ ∑ w, f c h w := Finset.sum_le_sum fun w _ => hl c h w
  have hw_hi : ∀ c h, (∑ w, f c h w) ≤ (W : ℝ) * hi := by
    intro c h
    calc (∑ w, f c h w) ≤ ∑ _w : Fin W, hi := Finset.sum_le_sum fun w _ => hh c h w
      _ = (W : ℝ) * hi := by simp [Finset.sum_const, Finset.card_univ, nsmul_eq_mul]
  have hh_lo : ∀ c, (H : ℝ) * ((W : ℝ) * lo) ≤ ∑ h, ∑ w, f c h w := by
    intro c
    calc (H : ℝ) * ((W : ℝ) * lo) = ∑ _h : Fin H, (W : ℝ) * lo := by
          simp [Finset.sum_const, Finset.card_univ, nsmul_eq_mul]
      _ ≤ ∑ h, ∑ w, f c h w := Finset.sum_le_sum fun h _ => hw_lo c h
  have hh_hi : ∀ c, (∑ h, ∑ w, f c h w) ≤ (H : ℝ) * ((W : ℝ) * hi) := by
    intro c
    calc (∑ h, ∑ w, f c h w) ≤ ∑ _h : Fin H, (W : ℝ) * hi :=
          Finset.sum_le_sum fun h _ => hw_hi c h
      _ = (H : ℝ) * ((W : ℝ) * hi) := by
          simp [Finset.sum_const, Finset.card_univ, nsmul_eq_mul]
  constructor
  · calc ((C : ℝ) * H * W) * lo = ∑ _c : Fin C, (H : ℝ) * ((W : ℝ) * lo) := by
          simp [Finset.sum_const, Finset.card_univ, nsmul_eq_mul]
          ring
      _ ≤ ∑ c, ∑ h, ∑ w, f c h w := Finset.sum_le_sum fun c _ => hh_lo c
  · calc (∑ c, ∑ h, ∑ w, f c h w) ≤ ∑ _c : Fin C, (H : ℝ) * ((W : ℝ) * hi) :=
          Finset.sum_le_sum fun c _ => hh_hi c
      _ = ((C : ℝ) * H * W) * hi := by
          simp [Finset.sum_const, Finset.card_univ, nsmul_eq_mul]
          ring

/-- The posterior object `VAE.step` builds from view `x1`:
`Normal/Laplace(fc_mu(encoder(x1)), exp(fc_var(encoder(x1)) / 2))`. -/
def stepPosterior (posterior : DistFamily)
    (encoder : Tensor4 N 3 ih ih → Tensor2 N D)
    (fc_mu fc_var : Tensor2 N D → Tensor2 N Z)
    (x1 : Tensor4 N 3 ih ih) : DistObj N Z :=
  ⟨posterior, fc_mu (encoder x1),
   fun i j => Real.exp (fc_var (encoder x1) i j / 2)⟩

/-- The prior object `VAE.step` builds: zero location, unit scale. -/
def priorObj (prior : DistFamily) : DistObj N Z :=
  ⟨prior, fun _ _ => 0, fun _ _ => 1⟩

/-- The per-example importance weight of the marginal-likelihood
diagnostic: `log_pxz + log_pz.sum(-1) - log_qz.sum(-1)` at the latent
sample `z` drawn from the posterior. -/
def stepISWeight (prior posterior : DistFamily)
    (encoder : Tensor4 N 3 ih ih → Tensor2 N D)
    (fc_mu fc_var : Tensor2 N D → Tensor2 N Z)
    (decoder : Tensor2 N Z → Tensor4 N 3 ih ih)
    (log_scale : ℝ) (eps : Tensor2 N Z)
    (x1 x2 : Tensor4 N 3 ih ih) : Vec N :=
  let q := stepPosterior posterior encoder fc_mu fc_var x1
  let p : DistObj N Z := priorObj prior
  let z := q.rsample eps
  fun i => discretized_logistic (decoder z) log_scale x2 (1 / 256) i
    + (∑ j, p.logProb z i j) - (∑ j, q.logProb z i j)

/-! ## Claims -/

/-- C1, counterexample: the code's `kl_divergence_mc` does not draw its
samples from the posterior `q` — it draws them from its first argument
`p`, the prior at the call site, and averages `log p - log q` there.  At
`p = Normal(0, 1)`, `q = Normal(1, 1)`, one sample, base noise 1, the
code's estimator gives `-1/2` while the estimator the claim describes
gives `3/2`. -/
theorem C1_counterexample :
    kl_divergence_mc pC1 qC1 1 epsC1 0 ≠ kl_divergence_mc_claimed pC1 qC1 1 epsC1 0 := by
  have hA : kl_divergence_mc pC1 qC1 1 epsC1 0 = -(1 / 2) := by
    simp [kl_divergence_mc, pC1, qC1, epsC1, DistObj.logProb, DistObj.rsample,
      normalLogProb]
    norm_num
  have hB : kl_divergence_mc_claimed pC1 qC1 1 epsC1 0 = 3 / 2 := by
    simp [kl_divergence_mc_claimed, pC1, qC1, epsC1, DistObj.logProb, DistObj.rsample,
      normalLogProb]
    norm_num
  rw [hA, hB]
  norm_num

/-- C1, amended: the KL term of the training step is a Monte-Carlo
estimator whose samples are drawn from the prior `p` (the first argument
of `kl_divergence_mc` at the call site); it evaluates `log_prob` of those
samples under both `p` and `q`, averages over the Monte-Carlo axis and
sums over the latent dimensions, yielding a per-example (shape `(N,)`)
estimate of `KL(p, q)` — not of `KL(q, p)` from posterior samples. -/
theorem C1_amended_kl_mc (p q : DistObj N Z) (numSamples : ℕ)
    (eps : Fin numSamples → Tensor2 N Z) (i : Fin N) :
    kl_divergence_mc p q numSamples eps i =
      (∑ s, ∑ j, (p.logProb (p.rsample (eps s)) i j
        - q.logProb (p.rsample (eps s)) i j)) / (numSamples : ℝ) := by
  simp only [kl_divergence_mc]
  rw [← Finset.sum_div]
  congr 1
  exact Finset.sum_comm

/-- C3, counterexample: a projection head built in the "linear"
configuration (`hidden_dim = 0`) is `nn.Linear(input_dim, output_dim)`,
whose default keeps an additive bias; with zero weight, bias 1 and input
0, the head outputs 1 while the bias-free matrix–vector product of the
claim outputs 0. -/
theorem C3_counterexample :
    Projection.forward P3 (fun _ => 0) 0 ≠ projectionClaimedLinear (P3.lw) (fun _ => 0) 0 := by
  simp [Projection.forward, projectionClaimedLinear, P3]

/-- C3, amended: with `hidden_dim = 0` the projection head computes a
single affine map — no hidden layer, no nonlinearity — but it keeps the
default bias of `nn.Linear`: its output is the bias-free matrix–vector
product of the claim plus the layer's bias vector. -/
theorem C3_linear_projection_affine (inputDim outputDim : ℕ)
    (P : ProjectionParams inputDim 0 outputDim) (x : Vec inputDim) :
    Projection.forward P x = fun o => projectionClaimedLinear (P.lw) x o + P.lb o := by
  simp [Projection.forward, projectionClaimedLinear]

/-- C4: the discretized-logistic likelihood clamps its mean into
`[-0.5 + 1/512, 0.5 - 1/512]`, sets `scale = exp(log_scale)`, quantizes
the target to 1/256-wide bins, takes per pixel the logarithm of the
logistic-CDF difference across the bin edges plus `1e-7`, and sums over
the channel and both spatial axes, returning one value per batch
element. -/
theorem C4_discretized_logistic_form (mean : Tensor4 N C H W) (logscale : ℝ)
    (sample : Tensor4 N C H W) :
    discretized_logistic mean logscale sample (1 / 256) =
      discretized_logistic_edges mean logscale sample (1 / 256) := by
  funext i
  simp only [discretized_logistic, discretized_logistic_edges]
  refine Finset.sum_congr rfl fun c _ => Finset.sum_congr rfl fun h _ =>
    Finset.sum_congr rfl fun w _ => ?_
  rw [div_add_div_same]
  ring_nf

/-- C10: applying `kl_divergence_mc` to two distribution objects of the
same family with identical (location, scale) parameters (positive scale)
returns exactly zero for every batch element and any number of
Monte-Carlo samples: both log-densities are evaluated at the very same
drawn sample and cancel termwise. -/
theorem C10_kl_same_params (f : DistFamily) (μ σ : Tensor2 N Z)
    (hσ : ∀ i j, 0 < σ i j) (numSamples : ℕ) (hns : 0 < numSamples)
    (eps : Fin numSamples → Tensor2 N Z) (i : Fin N) :
    kl_divergence_mc ⟨f, μ, σ⟩ ⟨f, μ, σ⟩ numSamples eps i = 0 := by
  simp [kl_divergence_mc]

/-- C2, counterexample: constructing the model with the unsupported
distribution-family name "cauchy" as prior succeeds — `VAE.__init__` only
stores the string — and the invalid-configuration failure (`KeyError` in
the `distributions` registry) first occurs inside the later `sample`
call, i.e. mid-training. -/
theorem C2_counterexample :
    (VAE.init resnet18Name resnet18Name cauchyName normalName linearName).isSome
        = true ∧
    (VAE.init resnet18Name resnet18Name cauchyName normalName linearName).bind
        (fun st => VAE.sample st zeroT zeroT zeroT) = none := by
  exact ⟨rfl, rfl⟩

/-- C2, amended: an unsupported distribution-family name does not make
construction fail — `VAE.__init__` validates only the backbone names and
stores the prior/posterior strings unchecked — and the failure first
occurs at the registry lookup inside `VAE.sample`, i.e. mid-training at
the first forward pass. -/
theorem C2_invalid_family_fails_in_sample (pr po proj : String)
    (hpr : distributions pr = none) :
    (VAE.init resnet18Name resnet18Name pr po proj).isSome = true ∧
    ∀ st, VAE.init resnet18Name resnet18Name pr po proj = some st →
      VAE.sample st zeroT zeroT zeroT = none := by
  constructor
  · rfl
  · intro st hst
    have h2 : (⟨Backbone.resnet18, Backbone.resnet18, pr, po,
        if proj = linearName then 0 else 2048⟩ : VAEState) = st :=
      Option.some_inj.mp hst
    subst h2
    simp [VAE.sample, hpr]

/-- Witness for C2 at the concrete invalid prior name "cauchy". -/
theorem C2_invalid_family_witness :
    distributions cauchyName = none ∧
    ((VAE.init resnet18Name resnet18Name cauchyName normalName linearName).isSome
        = true ∧
     ∀ st, VAE.init resnet18Name resnet18Name cauchyName normalName linearName
        = some st → VAE.sample st zeroT zeroT zeroT = none) :=
  ⟨rfl, C2_invalid_family_fails_in_sample cauchyName normalName linearName rfl⟩

/-- C5: for any mean tensor and log-scale, and any target whose pixels lie
in the valid range `[-0.5, 0.5]` (boundaries included), every batch
element of the discretized-logistic likelihood is bounded between
`C*H*W * log(1e-7)` and `C*H*W * log(1 + 1e-7)` — a finite value, never
`-∞`/`NaN`: the additive `1e-7` keeps each logarithm's argument in
`[1e-7, 1 + 1e-7]`. -/
theorem C5_discretized_logistic_finite (mean : Tensor4 N C H W) (logscale : ℝ)
    (sample : Tensor4 N C H W)
    (hs : ∀ i c h w, -0.5 ≤ sample i c h w ∧ sample i c h w ≤ 0.5) (i : Fin N) :
    ((C : ℝ) * H * W) * Real.log (1e-7) ≤
        discretized_logistic mean logscale sample (1 / 256) i ∧
    discretized_logistic mean logscale sample (1 / 256) i ≤
        ((C : ℝ) * H * W) * Real.log (1 + 1e-7) := by
  have hd : (0 : ℝ) ≤ (1 / 256) / Real.exp logscale := by positivity
  simp only [discretized_logistic]
  exact sum3_bounds _ _ _
    (fun c h w => (logArg_bounds _ _ hd).1)
    (fun c h w => (logArg_bounds _ _ hd).2)

/-- A one-pixel all-zero mean tensor. -/
def meanW5 : Tensor4 1 1 1 1 := fun _ _ _ _ => 0

/-- A one-pixel target sitting exactly at the pixel-range boundary 0.5. -/
def sampleW5 : Tensor4 1 1 1 1 := fun _ _ _ _ => 0.5

/-- Witness for C5 on a one-pixel batch whose target sits exactly at the
pixel-range boundary 0.5. -/
theorem C5_finite_witness :
    (∀ i c h w : Fin 1, -0.5 ≤ sampleW5 i c h w ∧ sampleW5 i c h w ≤ 0.5) ∧
    (((1 : ℕ) : ℝ) * (1 : ℕ) * (1 : ℕ) * Real.log (1e-7) ≤
        discretized_logistic meanW5 0 sampleW5 (1 / 256) 0 ∧
     discretized_logistic meanW5 0 sampleW5 (1 / 256) 0 ≤
        ((1 : ℕ) : ℝ) * (1 : ℕ) * (1 : ℕ) * Real.log (1 + 1e-7)) :=
  ⟨fun _ _ _ _ => by norm_num [sampleW5],
   C5_discretized_logistic_finite meanW5 0 sampleW5
     (fun _ _ _ _ => by norm_num [sampleW5]) 0⟩

/-- C6: the training objective is `elbo = mean over the batch of
(KL - log_pxz)` — a loss to minimize — and this same scalar is what both
`training_step` and `validation_step` return as the loss; the two steps
differ only in the key prefix under which the (identical) metric values
are logged. -/
theorem C6_loss (prior posterior : DistFamily)
    (encoder : Tensor4 N 3 ih ih → Tensor2 N D)
    (fc_mu fc_var : Tensor2 N D → Tensor2 N Z)
    (decoder : Tensor2 N Z → Tensor4 N 3 ih ih)
    (gini_score : Tensor2 N Z → Vec N)
    (log_scale : ℝ) (eps : Tensor2 N Z) (klEps : Fin 1 → Tensor2 N Z)
    (x1 x2 : Tensor4 N 3 ih ih) :
    (let ts := VAE.training_step prior posterior encoder fc_mu fc_var decoder
        gini_score log_scale eps klEps x1 x2
     let vs := VAE.validation_step prior posterior encoder fc_mu fc_var decoder
        gini_score log_scale eps klEps x1 x2
     let st := VAE.step prior posterior encoder fc_mu fc_var decoder
        gini_score log_scale eps klEps x1 x2
     let q := stepPosterior posterior encoder fc_mu fc_var x1
     let p : DistObj N Z := priorObj prior
     ts.1 = vs.1 ∧
     ts.1 = (∑ i, (kl_divergence_mc p q 1 klEps i
       - discretized_logistic (decoder (q.rsample eps)) log_scale x2 (1 / 256) i))
         / (N : ℝ) ∧
     ts.2 = tagLogs trainTag st.2 ∧
     vs.2 = tagLogs valTag st.2 ∧
     ts.2.map Prod.snd = vs.2.map Prod.snd) :=
  ⟨rfl, rfl, rfl, rfl, rfl⟩

/-- C7: the bits-per-dimension metric of the step equals
`elbo / (H * W * C * ln 2)` with `H = W = ih` and `C = 3`, and it scales
exactly proportionally with `elbo`. -/
theorem C7_bpd (prior posterior : DistFamily)
    (encoder : Tensor4 N 3 ih ih → Tensor2 N D)
    (fc_mu fc_var : Tensor2 N D → Tensor2 N Z)
    (decoder : Tensor2 N Z → Tensor4 N 3 ih ih)
    (gini_score : Tensor2 N Z → Vec N)
    (log_scale : ℝ) (eps : Tensor2 N Z) (klEps : Fin 1 → Tensor2 N Z)
    (x1 x2 : Tensor4 N 3 ih ih) (a : ℝ) :
    (let st := VAE.step prior posterior encoder fc_mu fc_var decoder
        gini_score log_scale eps klEps x1 x2
     st.2.bpd = st.2.elbo / ((ih : ℝ) * (ih : ℝ) * 3 * Real.log 2) ∧
     st.2.bpd = bitsPerDim ih st.2.elbo ∧
     bitsPerDim ih (a * st.2.elbo) = a * bitsPerDim ih st.2.elbo) := by
  refine ⟨rfl, rfl, ?_⟩
  simp only [bitsPerDim]
  rw [mul_div_assoc]

/-- C8: the reconstruction term is cross-view — `log_pxz` is the
discretized-logistic likelihood of the second augmented view `x2`
evaluated under the reconstruction `decoder(z)` obtained by encoding the
first view `x1`; both the loss and the logged mean use `x2`, never `x1`,
as the likelihood target. -/
theorem C8_cross_view (prior posterior : DistFamily)
    (encoder : Tensor4 N 3 ih ih → Tensor2 N D)
    (fc_mu fc_var : Tensor2 N D → Tensor2 N Z)
    (decoder : Tensor2 N Z → Tensor4 N 3 ih ih)
    (gini_score : Tensor2 N Z → Vec N)
    (log_scale : ℝ) (eps : Tensor2 N Z) (klEps : Fin 1 → Tensor2 N Z)
    (x1 x2 : Tensor4 N 3 ih ih) :
    (let st := VAE.step prior posterior encoder fc_mu fc_var decoder
        gini_score log_scale eps klEps x1 x2
     let q := stepPosterior posterior encoder fc_mu fc_var x1
     st.2.log_pxz =
       (∑ i, discretized_logistic (decoder (q.rsample eps)) log_scale x2
         (1 / 256) i) / (N : ℝ) ∧
     st.1 = (∑ i, (kl_divergence_mc (priorObj prior) q 1 klEps i
       - discretized_logistic (decoder (q.rsample eps)) log_scale x2 (1 / 256) i))
         / (N : ℝ)) :=
  ⟨rfl, rfl⟩

/-- C9: the marginal log-likelihood diagnostic equals
`logsumexp_i (log_pxz_i + log_pz_i - log_qz_i) - log n` over the batch
axis, where the latent log-densities are summed over the latent
dimensions — one scalar mixing the batch elements as importance-sampling
particles, equivalently the log of the average importance weight. -/
theorem C9_marginal (prior posterior : DistFamily)
    (encoder : Tensor4 N 3 ih ih → Tensor2 N D)
    (fc_mu fc_var : Tensor2 N D → Tensor2 N Z)
    (decoder : Tensor2 N Z → Tensor4 N 3 ih ih)
    (gini_score : Tensor2 N Z → Vec N)
    (log_scale : ℝ) (eps : Tensor2 N Z) (klEps : Fin 1 → Tensor2 N Z)
    (x1 x2 : Tensor4 N 3 ih ih) (hN : 0 < N) :
    (VAE.step prior posterior encoder fc_mu fc_var decoder gini_score
        log_scale eps klEps x1 x2).2.marginal_log_px =
      Real.log (∑ i, Real.exp (stepISWeight prior posterior encoder fc_mu
        fc_var decoder log_scale eps x1 x2 i)) - Real.log (N : ℝ) ∧
    (VAE.step prior posterior encoder fc_mu fc_var decoder gini_score
        log_scale eps klEps x1 x2).2.marginal_log_px =
      Real.log ((∑ i, Real.exp (stepISWeight prior posterior encoder fc_mu
        fc_var decoder log_scale eps x1 x2 i)) / (N : ℝ)) := by
  have hS : 0 < ∑ i, Real.exp (stepISWeight prior posterior encoder fc_mu
      fc_var decoder log_scale eps x1 x2 i) :=
    Finset.sum_pos (fun i _ => Real.exp_pos _) ⟨⟨0, hN⟩, Finset.mem_univ _⟩
  refine ⟨rfl, ?_⟩
  rw [Real.log_div hS.ne' (Nat.cast_ne_zero.mpr hN.ne')]
  rfl

/-- An all-zero (1, 3, 1, 1) image tensor. -/
def zT4 : Tensor4 1 3 1 1 := fun _ _ _ _ => 0

/-- Trivial encoder collaborator for witnesses. -/
def encW : Tensor4 1 3 1 1 → Tensor2 1 1 := fun _ => zeroT

/-- Trivial decoder collaborator for witnesses. -/
def decW : Tensor2 1 1 → Tensor4 1 3 1 1 := fun _ => zT4

/-- Identity projection head for witnesses. -/
def idW : Tensor2 1 1 → Tensor2 1 1 := fun t => t

/-- Trivial Gini-score collaborator for witnesses. -/
def giniW : Tensor2 1 1 → Vec 1 := fun _ _ => 0

/-- Witness for C9 on a singleton batch of zero images. -/
theorem C9_marginal_witness :
    0 < 1 ∧
    ((VAE.step DistFamily.normal DistFamily.normal encW idW idW decW giniW
        0 zeroT (fun _ => zeroT) zT4 zT4).2.marginal_log_px =
      Real.log (∑ i, Real.exp (stepISWeight DistFamily.normal
        DistFamily.normal encW idW idW decW 0 zeroT zT4 zT4 i))
        - Real.log ((1 : ℕ) : ℝ) ∧
     (VAE.step DistFamily.normal DistFamily.normal encW idW idW decW giniW
        0 zeroT (fun _ => zeroT) zT4 zT4).2.marginal_log_px =
      Real.log ((∑ i, Real.exp (stepISWeight DistFamily.normal
        DistFamily.normal encW idW idW decW 0 zeroT zT4 zT4 i))
        / ((1 : ℕ) : ℝ))) :=
  ⟨by norm_num,
   C9_marginal DistFamily.normal DistFamily.normal encW idW idW decW giniW
     0 zeroT (fun _ => zeroT) zT4 zT4 (by norm_num)⟩

/-- Witness for C10 at the standard normal over one latent dimension,
one Monte-Carlo sample, zero noise. -/
theorem C10_kl_same_params_witness :
    (∀ i j : Fin 1, (0 : ℝ) < (fun _ _ => (1 : ℝ)) i j) ∧ 0 < 1 ∧
    kl_divergence_mc (⟨DistFamily.normal, fun _ _ => 0, fun _ _ => 1⟩ : DistObj 1 1)
      (⟨DistFamily.normal, fun _ _ => 0, fun _ _ => 1⟩ : DistObj 1 1) 1
      (fun _ _ _ => 0) 0 = 0 :=
  ⟨fun _ _ => by norm_num, by norm_num,
   C10_kl_same_params DistFamily.normal (fun _ _ => 0) (fun _ _ => 1)
     (fun _ _ => by norm_num) 1 (by norm_num) (fun _ _ _ => 0) 0⟩

end

end AAVAE
